import Mathlib

/-!
Verification of the `timeout` Go package (Songmu/timeouts): a shallow
embedding of `src/timeout.go` and proofs about it.

The package supervises one external command: it spawns the process, arms a
timeout timer and (optionally) a kill-after timer, and multiplexes over the
three event sources (process exit, timeout expiry, kill-after expiry) in
`handleTimeout`'s `reflect.Select` loop.

Modelling choices, each justified next to its definition:
* machine integers (`int`, exit codes, `time.Duration`) become `Int`;
* `syscall.WaitStatus` is consumed only through the `wrapcommander`
  collaborator (`WaitStatusToExitCode`, `.Signaled()`), so it is embedded as
  the normalized pair `{code, signaled}` that collaborator produces;
* the escalation loop is embedded as a function over the list of events the
  `reflect.Select` statement delivers, and the set of event lists the Go
  runtime can actually deliver is characterized by the inductive `Trace`
  relation, which encodes exactly the guarantees of the constructs used:
  each `time.After` channel carries a single value (consumable at most
  once), the kill-after channel exists only when `KillAfter > 0`, and the
  loop returns on the process-exit event.  `reflect.Select` makes a
  uniformly random choice among simultaneously ready cases, so `Trace`
  deliberately does not constrain the relative delivery order of the
  timeout and kill-after values.
-/

namespace timeout

/-- Signals as used by the package: `os.Interrupt`, `syscall.SIGTERM`, and
anything else a caller may configure (`os.Signal` is an interface). -/
inductive Sig where
  | interrupt : Sig
  | sigterm : Sig
  | otherSig : Int → Sig
deriving DecidableEq, Repr

/-- The `Timeout` struct.  `Duration` and `KillAfter` are `time.Duration`
(an `int64` nanosecond count), embedded as `Int`.  Go's nilable
`os.Signal` field becomes `Option Sig`.  The `Cmd` field is the opaque OS
process handle and carries no data the escalation logic reads, so it is
omitted. -/
structure Timeout where
  Duration : Int
  KillAfter : Int
  Signal : Option Sig
  Foreground : Bool
deriving DecidableEq, Repr

/-- The value `defaultSignal` is assigned by the package's `init` function
from `runtime.GOOS`: `os.Interrupt` on `"windows"`, `syscall.SIGTERM` in
the default case.  The platform string is a parameter here because the Go
value is fixed per build target. -/
def defaultSignal (goos : String) : Sig :=
  if goos = "windows" then Sig.interrupt else Sig.sigterm

/-- Exit-status constants, "same with GNU timeout" per the source. -/
def exitNormal : Int := 0

def exitTimedOut : Int := 124

def exitUnknownErr : Int := 125

def exitKilled : Int := 137

/-- `exitType`: the phase tag stored inside `ExitStatus`
(`exitTypeNormal`, `exitTypeTimedOut`, `exitTypeKilled`). -/
inductive exitType where
  | normal : exitType
  | timedOut : exitType
  | killed : exitType
deriving DecidableEq, Repr

/-- The `ExitStatus` struct: raw child code, whether the child terminated
on a signal, and the internal phase tag. -/
structure ExitStatus where
  Code : Int
  Signaled : Bool
  typ : exitType
deriving DecidableEq, Repr

/-- `IsTimedOut`: true for both the timed-out and the killed phase. -/
def ExitStatus.IsTimedOut (ex : ExitStatus) : Bool :=
  ex.typ == exitType.timedOut || ex.typ == exitType.killed

/-- `IsKilled`: true exactly for the killed phase. -/
def ExitStatus.IsKilled (ex : ExitStatus) : Bool :=
  ex.typ == exitType.killed

/-- `GetExitCode`: the escalation-aware exit code for command line tools. -/
def ExitStatus.GetExitCode (ex : ExitStatus) : Int :=
  if ex.IsKilled then exitKilled
  else if ex.IsTimedOut then exitTimedOut
  else ex.Code

/-- `GetChildExitCode`: the exit code of the command itself. -/
def ExitStatus.GetChildExitCode (ex : ExitStatus) : Int :=
  ex.Code

/-- `(*Timeout).signal()`: the configured signal, or the platform default
when the `Signal` field is nil. -/
def Timeout.signal (goos : String) (tio : Timeout) : Sig :=
  match tio.Signal with
  | none => defaultSignal goos
  | some s => s

/-- The normalized wait result: `wrapcommander.WaitStatusToExitCode st` and
`st.Signaled()` are the only reads of a `syscall.WaitStatus`, so the
embedding keeps just that pair (the collaborator contract of the spec). -/
structure WaitStatus where
  code : Int
  signaled : Bool
deriving DecidableEq, Repr

/-- One event delivered by the `reflect.Select` statement in
`handleTimeout`.  `exitEv st` is case 0 (the process-exit channel); the
payload is `some w` when the received interface value passes the
`syscall.WaitStatus` type assertion and `none` when it does not.
`timeoutEv` is case 1 (the `time.After(Duration)` channel) and `killEv` is
case 2 (the `time.After(Duration+KillAfter)` channel). -/
inductive Event where
  | exitEv : Option WaitStatus → Event
  | timeoutEv : Event
  | killEv : Event
deriving DecidableEq, Repr

def isExitEv : Event → Bool
  | Event.exitEv _ => true
  | _ => false

def isTimeoutEv : Event → Bool
  | Event.timeoutEv => true
  | _ => false

def isKillEv : Event → Bool
  | Event.killEv => true
  | _ => false

/-- The body of `handleTimeout`'s `for { reflect.Select ... }` loop, as a
function of the accumulator `ex` (the named return value, zero-valued at
entry) and the events the select delivers, in delivery order.  Case 0
returns (updating `Code`/`Signaled` only when the type assertion holds);
case 1 sets the timed-out phase and continues; case 2 sets the killed
phase and continues.  An event list on which the loop never returns (no
exit event) yields `none`. -/
def runLoop : ExitStatus → List Event → Option ExitStatus
  | _, [] => none
  | ex, Event.exitEv st :: _ =>
    some (match st with
          | some w => { ex with Code := w.code, Signaled := w.signaled }
          | none => ex)
  | ex, Event.timeoutEv :: rest =>
    runLoop { ex with typ := exitType.timedOut } rest
  | ex, Event.killEv :: rest =>
    runLoop { ex with typ := exitType.killed } rest

/-- The zero value of `ExitStatus` (`var ex ExitStatus` as a named return). -/
def zeroStatus : ExitStatus :=
  { Code := 0, Signaled := false, typ := exitType.normal }

/-- `(*Timeout).handleTimeout()`, as a function of the event list delivered
by its select loop. -/
def handleTimeout (_tio : Timeout) (tr : List Event) : Option ExitStatus :=
  runLoop zeroStatus tr

/-- How many times the loop calls `tio.terminate()` (it does so exactly
once per delivered timeout event, in case 1). -/
def terminateCount (tr : List Event) : Nat :=
  List.countP isTimeoutEv tr

/-- How many times the loop calls `tio.killall()` followed by the
safety-net `cmd.Process.Kill()` (exactly once per delivered kill event,
in case 2). -/
def killallCount (tr : List Event) : Nat :=
  List.countP isKillEv tr

/-- The availability state of the two one-shot timer channels feeding the
select loop: a `time.After` channel holds a single value, so each can be
consumed at most once. -/
structure LoopEnv where
  timeoutAvail : Bool
  killAvail : Bool
deriving DecidableEq, Repr

/-- The channel state at loop entry: the timeout timer is always armed;
the kill-after case is appended only under `if tio.KillAfter > 0`. -/
def initEnv (tio : Timeout) : LoopEnv :=
  { timeoutAvail := true, killAvail := decide (0 < tio.KillAfter) }

/-- The event lists the select loop can consume from channel state `env`:
the process-exit event is always eventually available and ends the list
(the loop returns on it); each timer value can be consumed at most once
and only while still available.  Relative ordering of the timeout and
kill-after values is unconstrained, because `reflect.Select` chooses
uniformly at random among ready cases, and both one-shot values can be
pending simultaneously. -/
inductive Trace : LoopEnv → List Event → Prop where
  | exitStep (env : LoopEnv) (st : Option WaitStatus) :
      Trace env [Event.exitEv st]
  | timeoutStep (env : LoopEnv) (tr : List Event)
      (h : env.timeoutAvail = true)
      (htr : Trace { env with timeoutAvail := false } tr) :
      Trace env (Event.timeoutEv :: tr)
  | killStep (env : LoopEnv) (tr : List Event)
      (h : env.killAvail = true)
      (htr : Trace { env with killAvail := false } tr) :
      Trace env (Event.killEv :: tr)

/-- The event lists one invocation of `handleTimeout` on `tio` can consume. -/
def Admissible (tio : Timeout) (tr : List Event) : Prop :=
  Trace (initEnv tio) tr

/-- A spawn-time failure of `cmd.Start()`.  The out-of-scope collaborator
`wrapcommander.ResolveExitCode` maps it to a conventional "could not
execute" code; the embedding carries that resolved code on the error
value itself. -/
structure SpawnError where
  resolvedExitCode : Int
deriving DecidableEq, Repr

/-- The package's `Error` struct (`ExitCode int; Err error`). -/
structure TError where
  ExitCode : Int
  Err : SpawnError
deriving DecidableEq, Repr

/-- `RunCommand`: on spawn failure return no channel and a typed `*Error`
with the resolved exit code; on success spawn the goroutine that sends
`handleTimeout`'s single result on the returned channel.  The channel is
embedded as the function producing that one value from the delivered
event list. -/
def RunCommand (tio : Timeout) (spawn : Option SpawnError) :
    Except TError (List Event → Option ExitStatus) :=
  match spawn with
  | some e =>
    Except.error { ExitCode := e.resolvedExitCode, Err := e }
  | none => Except.ok (handleTimeout tio)

/-- `Run`: the buffered synchronous facade.  On `RunCommand` failure it
returns the zero `ExitStatus` together with the error; otherwise it blocks
on the channel and returns the delivered status (captured stdout/stderr
text is out of scope).  The result pairs the status with `Option TError`
to keep both components of Go's multiple return. -/
def Run (tio : Timeout) (spawn : Option SpawnError) (tr : List Event) :
    Option (ExitStatus × Option TError) :=
  match RunCommand tio spawn with
  | Except.error err => some (zeroStatus, some err)
  | Except.ok deliver => (deliver tr).map (fun ex => (ex, none))

/-- `getExitCodeFromErr`: the error handed to it by `RunSimple` is the
non-nil `*Error` built by `RunCommand`, whose type assertion succeeds and
whose `ExitCode` is returned; a nil error maps to `exitNormal`. -/
def getExitCodeFromErr : Option TError → Int
  | some tmerr => tmerr.ExitCode
  | none => exitNormal

/-- `RunSimple`: the streaming facade.  Failure to open either pipe
returns `exitUnknownErr`; spawn failure returns the code resolved from the
error; otherwise it blocks on the channel and reports either the raw
child code (`preserveStatus`) or the escalation-aware code. -/
def RunSimple (tio : Timeout) (stdoutPipeErr stderrPipeErr : Bool)
    (spawn : Option SpawnError) (tr : List Event)
    (preserveStatus : Bool) : Option Int :=
  if stdoutPipeErr then some exitUnknownErr
  else if stderrPipeErr then some exitUnknownErr
  else
    match RunCommand tio spawn with
    | Except.error err => some (getExitCodeFromErr (some err))
    | Except.ok deliver =>
      (deliver tr).map (fun exitSt =>
        if preserveStatus then exitSt.GetChildExitCode
        else exitSt.GetExitCode)

/-- The phase after processing one event (case 0 leaves it unchanged). -/
def phaseStep : exitType → Event → exitType
  | t, Event.exitEv _ => t
  | _, Event.timeoutEv => exitType.timedOut
  | _, Event.killEv => exitType.killed

/-- The sequence of phases the accumulator passes through, starting from
`t`, one entry per loop iteration prefix. -/
def phaseTrace (t : exitType) : List Event → List exitType
  | [] => [t]
  | e :: rest => t :: phaseTrace (phaseStep t e) rest

/-- The last phase reached after processing all events. -/
def lastPhase (t : exitType) : List Event → exitType
  | [] => t
  | e :: rest => lastPhase (phaseStep t e) rest

/-- Phase order: Normal (0) ≤ TimedOut (1) ≤ Killed (2). -/
def phaseRank : exitType → Nat
  | exitType.normal => 0
  | exitType.timedOut => 1
  | exitType.killed => 2

/-- Whether every loop iteration starting from phase `t` moves the phase
forward (in `phaseRank` order) or leaves it in place. -/
def monotoneFrom (t : exitType) : List Event → Bool
  | [] => true
  | e :: rest =>
    decide (phaseRank t ≤ phaseRank (phaseStep t e)) &&
      monotoneFrom (phaseStep t e) rest

/-- Phases only move forward along the event list, starting from the
zero-valued Normal phase. -/
def PhaseMonotone (tr : List Event) : Prop :=
  monotoneFrom exitType.normal tr = true

/-- `true` iff no timeout event occurs after a kill event: the order the
two timers actually fire (the timeout timer fires at `Duration`, the
kill-after timer at `Duration + KillAfter` with `KillAfter > 0`). -/
def noTimeoutAfterKill : List Event → Bool
  | [] => true
  | e :: rest =>
    if isKillEv e then rest.all (fun x => !isTimeoutEv x)
    else noTimeoutAfterKill rest

/-- A sample configuration with forced kill enabled. -/
def tioSample : Timeout :=
  { Duration := 100, KillAfter := 50, Signal := none, Foreground := false }

/-- A sample configuration with `KillAfter = 0` (forced kill disabled). -/
def tioNoKill : Timeout :=
  { Duration := 100, KillAfter := 0, Signal := none, Foreground := false }

/-- Events delivered in timer order: timeout, then kill, then exit. -/
def trSample : List Event :=
  [Event.timeoutEv, Event.killEv,
   Event.exitEv (some { code := 3, signaled := true })]

/-- Events with the two one-shot timer values consumed out of timer order:
both pending at the same select, the kill value drawn first. -/
def trRace : List Event :=
  [Event.killEv, Event.timeoutEv, Event.exitEv none]

/-- A timeout followed by an exit whose wait result fails the
`syscall.WaitStatus` type assertion. -/
def trNoKill : List Event :=
  [Event.timeoutEv, Event.exitEv none]

theorem adm_sample : Admissible tioSample trSample := by
  refine Trace.timeoutStep _ _ rfl (Trace.killStep _ _ ?_ (Trace.exitStep _ _))
  decide

theorem adm_race : Admissible tioSample trRace := by
  refine Trace.killStep _ _ ?_ (Trace.timeoutStep _ _ rfl (Trace.exitStep _ _))
  decide

theorem adm_noKill : Admissible tioNoKill trNoKill :=
  Trace.timeoutStep _ _ rfl (Trace.exitStep _ _)

theorem trace_ne_nil {env : LoopEnv} {tr : List Event} (h : Trace env tr) :
    tr ≠ [] := by
  cases h <;> simp

theorem trace_timeout_count {env : LoopEnv} {tr : List Event}
    (h : Trace env tr) :
    List.countP isTimeoutEv tr ≤ 1 ∧
      (env.timeoutAvail = false → List.countP isTimeoutEv tr = 0) := by
  induction h with
  | exitStep env st =>
    simp [List.countP_cons, isTimeoutEv]
  | timeoutStep env tr h htr ih =>
    have h0 : List.countP isTimeoutEv tr = 0 := ih.2 rfl
    refine ⟨?_, ?_⟩
    · simp [List.countP_cons, isTimeoutEv, h0]
    · intro hfalse
      rw [h] at hfalse
      exact absurd hfalse (by simp)
  | killStep env tr h htr ih =>
    refine ⟨?_, ?_⟩
    · simpa [List.countP_cons, isTimeoutEv] using ih.1
    · intro hfalse
      simpa [List.countP_cons, isTimeoutEv] using ih.2 hfalse

theorem trace_kill_count {env : LoopEnv} {tr : List Event}
    (h : Trace env tr) :
    List.countP isKillEv tr ≤ 1 ∧
      (env.killAvail = false → List.countP isKillEv tr = 0) := by
  induction h with
  | exitStep env st =>
    simp [List.countP_cons, isKillEv]
  | killStep env tr h htr ih =>
    have h0 : List.countP isKillEv tr = 0 := ih.2 rfl
    refine ⟨?_, ?_⟩
    · simp [List.countP_cons, isKillEv, h0]
    · intro hfalse
      rw [h] at hfalse
      exact absurd hfalse (by simp)
  | timeoutStep env tr h htr ih =>
    refine ⟨?_, ?_⟩
    · simpa [List.countP_cons, isKillEv] using ih.1
    · intro hfalse
      simpa [List.countP_cons, isKillEv] using ih.2 hfalse

theorem trace_exit_count {env : LoopEnv} {tr : List Event}
    (h : Trace env tr) : List.countP isExitEv tr = 1 := by
  induction h with
  | exitStep env st => simp [List.countP_cons, isExitEv]
  | timeoutStep env tr h htr ih => simpa [List.countP_cons, isExitEv] using ih
  | killStep env tr h htr ih => simpa [List.countP_cons, isExitEv] using ih

theorem trace_ends_with_exit {env : LoopEnv} {tr : List Event}
    (h : Trace env tr) :
    ∃ pre st, tr = pre ++ [Event.exitEv st] ∧
      pre.all (fun e => !isExitEv e) = true := by
  induction h with
  | exitStep env st => exact ⟨[], st, rfl, rfl⟩
  | timeoutStep env tr h htr ih =>
    obtain ⟨pre, st, h1, h2⟩ := ih
    exact ⟨Event.timeoutEv :: pre, st, by simp [h1],
      by rw [List.all_cons, h2]; rfl⟩
  | killStep env tr h htr ih =>
    obtain ⟨pre, st, h1, h2⟩ := ih
    exact ⟨Event.killEv :: pre, st, by simp [h1],
      by rw [List.all_cons, h2]; rfl⟩

theorem trace_runLoop_isSome {env : LoopEnv} {tr : List Event}
    (h : Trace env tr) :
    ∀ s : ExitStatus, (runLoop s tr).isSome = true := by
  induction h with
  | exitStep env st => intro s; cases st <;> simp [runLoop]
  | timeoutStep env tr h htr ih => intro s; simpa [runLoop] using ih _
  | killStep env tr h htr ih => intro s; simpa [runLoop] using ih _

theorem trace_kill_not_mem {env : LoopEnv} {tr : List Event}
    (h : Trace env tr) (hk : env.killAvail = false) :
    Event.killEv ∉ tr := by
  induction h with
  | exitStep env st => simp
  | timeoutStep env tr h htr ih =>
    intro hm
    rcases List.mem_cons.mp hm with h1 | h1
    · exact absurd h1 (by simp)
    · exact ih hk h1
  | killStep env tr h htr ih =>
    rw [h] at hk
    exact absurd hk (by simp)

theorem trace_runLoop_unclassified {env : LoopEnv} {tr : List Event}
    (h : Trace env tr) (hmem : Event.exitEv none ∈ tr) :
    ∀ s : ExitStatus, ∃ ex, runLoop s tr = some ex ∧
      ex.Code = s.Code ∧ ex.Signaled = s.Signaled := by
  induction h with
  | exitStep env st =>
    intro s
    have hst : st = none := by
      have := hmem
      simp at this
      exact this.symm
    subst hst
    exact ⟨s, rfl, rfl, rfl⟩
  | timeoutStep env tr h htr ih =>
    intro s
    have hm : Event.exitEv none ∈ tr := by
      rcases List.mem_cons.mp hmem with h1 | h1
      · exact absurd h1 (by simp)
      · exact h1
    obtain ⟨ex, h1, h2, h3⟩ := ih hm { s with typ := exitType.timedOut }
    exact ⟨ex, h1, h2, h3⟩
  | killStep env tr h htr ih =>
    intro s
    have hm : Event.exitEv none ∈ tr := by
      rcases List.mem_cons.mp hmem with h1 | h1
      · exact absurd h1 (by simp)
      · exact h1
    obtain ⟨ex, h1, h2, h3⟩ := ih hm { s with typ := exitType.killed }
    exact ⟨ex, h1, h2, h3⟩

theorem trace_runLoop_typ {env : LoopEnv} {tr : List Event}
    (h : Trace env tr) :
    ∀ s ex : ExitStatus, runLoop s tr = some ex →
      ex.typ = lastPhase s.typ tr := by
  induction h with
  | exitStep env st =>
    intro s ex hex
    cases st with
    | none =>
      have : ex = s := by simpa [runLoop] using hex.symm
      subst this
      rfl
    | some w =>
      have : ex = { s with Code := w.code, Signaled := w.signaled } := by
        simpa [runLoop] using hex.symm
      subst this
      rfl
  | timeoutStep env tr h htr ih =>
    intro s ex hex
    exact ih { s with typ := exitType.timedOut } ex hex
  | killStep env tr h htr ih =>
    intro s ex hex
    exact ih { s with typ := exitType.killed } ex hex

theorem runLoop_typ_not_killed :
    ∀ (tr : List Event) (s ex : ExitStatus),
      Event.killEv ∉ tr → s.typ ≠ exitType.killed →
      runLoop s tr = some ex → ex.typ ≠ exitType.killed := by
  intro tr
  induction tr with
  | nil =>
    intro s ex _ _ hrun
    simp [runLoop] at hrun
  | cons e rest ih =>
    intro s ex hmem hs hrun
    cases e with
    | exitEv st =>
      cases st with
      | none =>
        have : ex = s := by simpa [runLoop] using hrun.symm
        subst this
        exact hs
      | some w =>
        have : ex = { s with Code := w.code, Signaled := w.signaled } := by
          simpa [runLoop] using hrun.symm
        subst this
        exact hs
    | timeoutEv =>
      refine ih { s with typ := exitType.timedOut } ex ?_ (by simp) hrun
      intro hm
      exact hmem (List.mem_cons_of_mem _ hm)
    | killEv =>
      exact absurd (List.mem_cons_self _ _) hmem

theorem noTimeoutAfterKill_of_all :
    ∀ tr : List Event,
      tr.all (fun x => !isTimeoutEv x) = true →
      noTimeoutAfterKill tr = true := by
  intro tr
  induction tr with
  | nil => intro _; rfl
  | cons e rest ih =>
    intro hall
    rw [List.all_cons] at hall
    have h2 : rest.all (fun x => !isTimeoutEv x) = true :=
      (Bool.and_eq_true_iff.mp hall).2
    cases e with
    | exitEv st => simpa [noTimeoutAfterKill, isKillEv] using ih h2
    | timeoutEv => simp [isTimeoutEv] at hall
    | killEv => simpa [noTimeoutAfterKill, isKillEv] using h2

theorem monotoneFrom_of_ordered :
    ∀ (tr : List Event) (t : exitType),
      noTimeoutAfterKill tr = true →
      (t = exitType.killed → tr.all (fun x => !isTimeoutEv x) = true) →
      monotoneFrom t tr = true := by
  intro tr
  induction tr with
  | nil => intro t _ _; rfl
  | cons e rest ih =>
    intro t hno hk
    cases e with
    | exitEv st =>
      have hno2 : noTimeoutAfterKill rest = true := by
        simpa [noTimeoutAfterKill, isKillEv] using hno
      have hk2 : t = exitType.killed →
          rest.all (fun x => !isTimeoutEv x) = true := by
        intro ht
        have := hk ht
        rw [List.all_cons] at this
        exact (Bool.and_eq_true_iff.mp this).2
      have := ih t hno2 hk2
      simp [monotoneFrom, phaseStep, this]
    | timeoutEv =>
      have ht : t ≠ exitType.killed := by
        intro ht
        have := hk ht
        rw [List.all_cons] at this
        have := (Bool.and_eq_true_iff.mp this).1
        simp [isTimeoutEv] at this
      have hno2 : noTimeoutAfterKill rest = true := by
        simpa [noTimeoutAfterKill, isKillEv] using hno
      have hrec := ih exitType.timedOut hno2 (by intro h; cases h)
      cases t with
      | normal => simp [monotoneFrom, phaseStep, phaseRank, hrec]
      | timedOut => simp [monotoneFrom, phaseStep, phaseRank, hrec]
      | killed => exact absurd rfl ht
    | killEv =>
      have hall : rest.all (fun x => !isTimeoutEv x) = true := by
        simpa [noTimeoutAfterKill, isKillEv] using hno
      have hrec := ih exitType.killed (noTimeoutAfterKill_of_all rest hall)
        (fun _ => hall)
      cases t <;> simp [monotoneFrom, phaseStep, phaseRank, hrec]

/-- C1 counterexample: when `KillAfter > 0` and both one-shot timer values
are pending at the same select, the loop may consume the kill-after value
first (phase Killed) and the still-pending timeout value afterwards,
moving the phase backward to TimedOut — the final status reports
TimedOut although the forced kill was issued, so the phase is not
monotone and the loop does not wait only for the process-exit event after
the kill event. -/
theorem C1_counterexample :
    Admissible tioSample trRace ∧ ¬ PhaseMonotone trRace ∧
    Event.killEv ∈ trRace ∧
    handleTimeout tioSample trRace =
      some { Code := 0, Signaled := false, typ := exitType.timedOut } :=
  ⟨adm_race, by unfold PhaseMonotone; decide, by decide, by decide⟩

/-- C1 (amended): on every admissible event list, provided no timeout
event is delivered after the kill-after event — the order in which the
two timers actually fire — the phase moves only forward through Normal,
TimedOut, Killed; and unconditionally, ordered or not, the `ExitStatus`
the loop returns carries the last phase reached before the process-exit
event. -/
theorem C1_phase_monotone (tio : Timeout) (tr : List Event)
    (h : Admissible tio tr) :
    (noTimeoutAfterKill tr = true → PhaseMonotone tr) ∧
      ∀ ex, handleTimeout tio tr = some ex →
        ex.typ = lastPhase exitType.normal tr := by
  refine ⟨fun hord => monotoneFrom_of_ordered tr exitType.normal hord ?_, ?_⟩
  · intro h0
    cases h0
  · intro ex hex
    exact trace_runLoop_typ h zeroStatus ex hex

/-- C1 witness: the in-timer-order trace timeout, kill, exit is
admissible and phase-monotone, and even on the out-of-order race trace
the returned status carries the last phase reached. -/
theorem C1_phase_monotone_witness :
    PhaseMonotone trSample ∧
      ∀ ex, handleTimeout tioSample trRace = some ex →
        ex.typ = lastPhase exitType.normal trRace :=
  ⟨(C1_phase_monotone tioSample trSample adm_sample).1 (by decide),
   (C1_phase_monotone tioSample trRace adm_race).2⟩

/-- C2: `GetExitCode` is a pure function of the phase and the `Code`
field: Killed yields 137, TimedOut yields 124, Normal yields the raw
child code. -/
theorem C2_getExitCode (ex : ExitStatus) :
    ex.GetExitCode =
      (if ex.typ = exitType.killed then (137 : Int)
       else if ex.typ = exitType.timedOut then (124 : Int)
       else ex.Code) := by
  cases hex : ex.typ <;>
    simp [ExitStatus.GetExitCode, ExitStatus.IsKilled, ExitStatus.IsTimedOut,
      exitKilled, exitTimedOut, hex]

/-- C3: within one invocation of the escalation loop, the timeout event
and the kill-after event each fire at most once, so `terminate` (the
configured signal) and `killall` (the forced kill) are each invoked at
most once. -/
theorem C3_events_at_most_once (tio : Timeout) (tr : List Event)
    (h : Admissible tio tr) :
    terminateCount tr ≤ 1 ∧ killallCount tr ≤ 1 :=
  ⟨(trace_timeout_count h).1, (trace_kill_count h).1⟩

/-- C3 witness: on the sample trace the counts are within the bound. -/
theorem C3_events_at_most_once_witness :
    terminateCount trSample ≤ 1 ∧ killallCount trSample ≤ 1 :=
  C3_events_at_most_once tioSample trSample adm_sample

/-- C4: with `KillAfter = 0` the kill-after case is never appended to the
select, so no kill event is ever delivered: the process is signaled at
most once, the loop ends only on the process-exit event, and the
resulting status is never in the Killed phase. -/
theorem C4_killAfter_zero (tio : Timeout) (tr : List Event)
    (h0 : tio.KillAfter = 0) (h : Admissible tio tr) :
    Event.killEv ∉ tr ∧ terminateCount tr ≤ 1 ∧
      ∀ ex, handleTimeout tio tr = some ex → ex.IsKilled = false := by
  have hk : (initEnv tio).killAvail = false := by
    simp [initEnv, h0]
  have hmem := trace_kill_not_mem h hk
  refine ⟨hmem, (trace_timeout_count h).1, ?_⟩
  intro ex hex
  have h2 := runLoop_typ_not_killed tr zeroStatus ex hmem (by decide) hex
  simpa [ExitStatus.IsKilled] using h2

/-- C4 witness: a timed-out run with `KillAfter = 0`. -/
theorem C4_killAfter_zero_witness :
    Event.killEv ∉ trNoKill ∧ terminateCount trNoKill ≤ 1 ∧
      ∀ ex, handleTimeout tioNoKill trNoKill = some ex →
        ex.IsKilled = false :=
  C4_killAfter_zero tioNoKill trNoKill rfl adm_noKill

/-- C5: every admissible event list makes `handleTimeout` return exactly
one `ExitStatus`; the process-exit event occurs exactly once, as the last
event, so the loop returns exactly once, on the process-exit event. -/
theorem C5_exactly_one_status (tio : Timeout) (tr : List Event)
    (h : Admissible tio tr) :
    (∃ ex, handleTimeout tio tr = some ex) ∧
      List.countP isExitEv tr = 1 ∧
      ∃ pre st, tr = pre ++ [Event.exitEv st] ∧
        pre.all (fun e => !isExitEv e) = true := by
  refine ⟨?_, trace_exit_count h, trace_ends_with_exit h⟩
  exact Option.isSome_iff_exists.mp (trace_runLoop_isSome h zeroStatus)

/-- C5 witness: the sample trace delivers exactly one status. -/
theorem C5_exactly_one_status_witness :
    (∃ ex, handleTimeout tioSample trSample = some ex) ∧
      List.countP isExitEv trSample = 1 ∧
      ∃ pre st, trSample = pre ++ [Event.exitEv st] ∧
        pre.all (fun e => !isExitEv e) = true :=
  C5_exactly_one_status tioSample trSample adm_sample

/-- C6: when `cmd.Start()` fails, `RunCommand` returns no channel and a
typed `*Error` carrying the resolved "could not execute" code, the
escalation loop is never entered (the result does not depend on any
delivered event), and `Run` short-circuits with that error and the
zero-valued `ExitStatus`. -/
theorem C6_spawn_failure (tio : Timeout) (e : SpawnError) (tr : List Event) :
    RunCommand tio (some e) =
      Except.error { ExitCode := e.resolvedExitCode, Err := e } ∧
    Run tio (some e) tr =
      some (zeroStatus, some { ExitCode := e.resolvedExitCode, Err := e }) :=
  ⟨rfl, rfl⟩

/-- C7: for every delivered `ExitStatus`, `RunSimple` with
`preserveStatus = true` returns `GetChildExitCode`, which is the raw
child `Code` field unconditionally, and with `preserveStatus = false`
returns the escalation-aware `GetExitCode`. -/
theorem C7_preserveStatus (tio : Timeout) (tr : List Event) (ex : ExitStatus)
    (h : handleTimeout tio tr = some ex) :
    RunSimple tio false false none tr true = some ex.Code ∧
    RunSimple tio false false none tr false = some ex.GetExitCode ∧
    ex.GetChildExitCode = ex.Code := by
  refine ⟨?_, ?_, rfl⟩ <;>
    simp [RunSimple, RunCommand, handleTimeout] at h ⊢ <;>
    simp [h, ExitStatus.GetChildExitCode]

/-- C7 witness: the sample run reaches the Killed phase with child code
3; preserving the status returns 3, not preserving returns 137. -/
theorem C7_preserveStatus_witness :
    RunSimple tioSample false false none trSample true = some 3 ∧
    RunSimple tioSample false false none trSample false = some 137 := by
  have h := C7_preserveStatus tioSample trSample
    { Code := 3, Signaled := true, typ := exitType.killed } (by decide)
  exact ⟨h.1, h.2.1⟩

/-- C8: with no configured `Signal`, `signal()` resolves to the platform
default — `os.Interrupt` on windows, `SIGTERM` everywhere else; a
configured signal is used unchanged. -/
theorem C8_default_signal (goos : String) (tio : Timeout) :
    (tio.Signal = none →
      Timeout.signal goos tio =
        (if goos = "windows" then Sig.interrupt else Sig.sigterm)) ∧
    ∀ s, tio.Signal = some s → Timeout.signal goos tio = s := by
  constructor
  · intro h
    simp [Timeout.signal, h, defaultSignal]
  · intro s h
    simp [Timeout.signal, h]

/-- C8 witness: on linux with no configured signal, SIGTERM is used. -/
theorem C8_default_signal_witness :
    Timeout.signal "linux" tioSample = Sig.sigterm := by
  have h := (C8_default_signal "linux" tioSample).1 rfl
  rw [if_neg (by decide)] at h
  exact h

/-- C9: when the wait result received on the process-exit event fails the
`syscall.WaitStatus` type assertion, the invocation still completes, with
`Code` left at its zero value 0 and `Signaled` left false. -/
theorem C9_unclassified_wait (tio : Timeout) (tr : List Event)
    (h : Admissible tio tr) (hmem : Event.exitEv none ∈ tr) :
    ∃ ex, handleTimeout tio tr = some ex ∧
      ex.Code = 0 ∧ ex.Signaled = false :=
  trace_runLoop_unclassified h hmem zeroStatus

/-- C9 witness: a timed-out run whose wait result is unclassifiable. -/
theorem C9_unclassified_wait_witness :
    ∃ ex, handleTimeout tioNoKill trNoKill = some ex ∧
      ex.Code = 0 ∧ ex.Signaled = false :=
  C9_unclassified_wait tioNoKill trNoKill adm_noKill (by decide)

/-- C10: `IsKilled` implies `IsTimedOut`: a status in the Killed phase is
also reported as timed out, since `IsTimedOut` accepts both the TimedOut
and the Killed phase. -/
theorem C10_isKilled_implies_isTimedOut (ex : ExitStatus)
    (h : ex.IsKilled = true) : ex.IsTimedOut = true := by
  simp [ExitStatus.IsKilled] at h
  simp [ExitStatus.IsTimedOut, h]

/-- C10 witness: a killed status is reported as timed out. -/
theorem C10_isKilled_implies_isTimedOut_witness :
    ExitStatus.IsTimedOut
      { Code := 9, Signaled := false, typ := exitType.killed } = true :=
  C10_isKilled_implies_isTimedOut
    { Code := 9, Signaled := false, typ := exitType.killed } rfl

end timeout
